import Mathlib

/-!
Verification of the natural-language specification of a personal website
(an animated Conway's Game of Life canvas background plus a markdown notes
viewer) against a shallow embedding of its TypeScript/Svelte source.

The embedding covers:
* the Game of Life background component (`countNeighbors`,
  `computeNextGeneration`, `initializeGrid`, `handleResize`, mount);
* the notes loader (`formatTitle`, the markdown-extension filter and the
  article construction in `load`);
* the article viewer (`parseFrontMatter` with its front-matter regular
  expression, `selectArticle`'s request-id guard, and the view state).

JavaScript numbers are modelled as `Nat`/`Int` where the source only ever
holds integers; the two floating-point products `cols * 0.3` and
`cols * 0.7` are modelled exactly (IEEE 754 double rounding of an exact
integer input).  Strings manipulated character by character are modelled
as `List Char`.
-/

namespace Site

/-! ## Game of Life grid (background component) -/

/-- Reading `grid[i][j]` on a `boolean[][]`; out-of-range reads (which the
source never performs) default to `false`. -/
def cellAt (grid : List (List Bool)) (i j : Nat) : Bool :=
  (grid.getD i []).getD j false

/-- The loop bounds `for (let i = -1; i < 2; i++)` of `countNeighbors`. -/
def offsetRange : List Int := [-1, 0, 1]

/-- Embedding of `countNeighbors(grid, x, y)`: iterates the offsets
`i, j ∈ {-1,0,1}`, skips `(0,0)`, wraps indices as
`(x + i + cols) % cols` / `(y + j + rows) % rows` and counts live cells.
`x` is the column and `y` the row, exactly as in the source. -/
def countNeighbors (cols rows : Nat) (grid : List (List Bool)) (x y : Nat) : Nat :=
  offsetRange.foldl (fun sum i =>
    offsetRange.foldl (fun sum j =>
      if i = 0 ∧ j = 0 then sum
      else
        let col := (((x : Int) + i + (cols : Int)) % (cols : Int)).toNat
        let row := (((y : Int) + j + (rows : Int)) % (rows : Int)).toNat
        if cellAt grid row col then sum + 1 else sum) sum) 0

/-- Embedding of the body of `computeNextGeneration`: the next buffer as a
function of the current grid only.  Cell `(i, j)` dies on under/over
population, is born on exactly three neighbours, and otherwise keeps its
state, exactly as the source's `if`/`else if`/`else` chain. -/
def computeNextGeneration (cols rows : Nat) (grid : List (List Bool)) : List (List Bool) :=
  (List.range rows).map fun i =>
    (List.range cols).map fun j =>
      let neighbors := countNeighbors cols rows grid j i
      let currentCell := cellAt grid i j
      if currentCell && (decide (neighbors < 2) || decide (neighbors > 3)) then false
      else if !currentCell && decide (neighbors = 3) then true
      else currentCell

/-- The double-buffer swap `[grid, nextGrid] = [nextGrid, grid]` at the end
of `computeNextGeneration`: the freshly computed buffer becomes `grid` and
the old `grid` becomes the scratch buffer. -/
def stepBuffers (cols rows : Nat) (grid _nextGrid : List (List Bool)) :
    List (List Bool) × List (List Bool) :=
  (computeNextGeneration cols rows grid, grid)

/-- Specification-side statement of the standard Game of Life transition
rule: a live cell survives on two or three live neighbours, a dead cell is
born on exactly three. -/
def lifeRule (alive : Bool) (neighbors : Nat) : Bool :=
  if alive then decide (neighbors = 2 ∨ neighbors = 3) else decide (neighbors = 3)

/-- Specification-side list of the eight neighbour offsets `(i, j)` with
`i` the column offset and `j` the row offset, excluding `(0, 0)`. -/
def neighborOffsets : List (Int × Int) :=
  [(-1, -1), (-1, 0), (-1, 1), (0, -1), (0, 1), (1, -1), (1, 0), (1, 1)]

/-- Index wrapping `a mod n` on the torus (specification side). -/
def wrapIdx (n : Nat) (a : Int) : Nat := (a % (n : Int)).toNat

/-- Specification-side neighbour count: the number of the eight toroidal
neighbour positions of `(x, y)` that hold a live cell, indices taken
modulo `cols` and `rows`. -/
def liveNeighborCount (cols rows : Nat) (grid : List (List Bool)) (x y : Nat) : Nat :=
  (neighborOffsets.filter fun p =>
    cellAt grid (wrapIdx rows ((y : Int) + p.2)) (wrapIdx cols ((x : Int) + p.1))).length

/-! ### Exact model of the two floating-point column cutoffs

`initializeGrid` computes `Math.floor(cols * 0.3)` and
`Math.floor(cols * 0.7)` in IEEE 754 double arithmetic.  The doubles
nearest 0.3 and 0.7 are `5404319552844595 / 2^54` and
`6305039478318694 / 2^53`; multiplying them by an exactly representable
integer `cols` rounds the exact product to 53 significant bits
(round-to-nearest, ties to even).  `mulFloorConst num den x` is the floor
of that correctly rounded product of `x` and `num / den`. -/

/-- Bit length of a natural number, computed with explicit structural fuel
so that it reduces in the kernel. -/
def bitLenAux : Nat → Nat → Nat
  | 0, _ => 0
  | fuel + 1, n => if n = 0 then 0 else bitLenAux fuel (n / 2) + 1

/-- Bit length of `n` (0 for 0, otherwise `log2 n + 1`). -/
def bitLen (n : Nat) : Nat := bitLenAux n n

/-- Floor of the IEEE-double rounding (round to nearest, ties to even,
53-bit significand) of the exact rational `(x * num) / den`. -/
def mulFloorConst (num den x : Nat) : Nat :=
  let m := x * num
  if m = 0 then 0
  else
    let k := bitLen m
    if k ≤ 53 then m / den
    else
      let s := k - 53
      let q := m / 2 ^ s
      let r := m % 2 ^ s
      let roundUp := decide (2 ^ s < 2 * r) || (decide (2 * r = 2 ^ s) && decide (q % 2 = 1))
      let q' := if roundUp then q + 1 else q
      q' * 2 ^ s / den

/-- Embedding of `Math.floor(cols * 0.3)` for an exactly representable
`cols` (every viewport-derived column count is far below `2^53`). -/
def mulFloor03 (x : Nat) : Nat := mulFloorConst 5404319552844595 (2 ^ 54) x

/-- Embedding of `Math.floor(cols * 0.7)` for an exactly representable
`cols`. -/
def mulFloor07 (x : Nat) : Nat := mulFloorConst 6305039478318694 (2 ^ 53) x

/-- Component-level state of the background component: the grid
configuration bindings together with the canvas dimensions. -/
structure LifeComponent where
  cols : Nat
  rows : Nat
  cellSize : Nat
  grid : List (List Bool)
  nextGrid : List (List Bool)
  canvasWidth : Nat
  canvasHeight : Nat
deriving DecidableEq

/-- Embedding of `initializeGrid()`: rebuilds `grid` and `nextGrid` as
`rows × cols` buffers; `nextGrid` is all dead; `grid` holds a random cell
(`Math.random() > 0.8`, modelled by the oracle `rnd i j`) only in the
columns left of `Math.floor(cols * 0.3)` and right of
`Math.floor(cols * 0.7)`, every other cell staying `false`. -/
def initializeGrid (rnd : Nat → Nat → Bool) (c : LifeComponent) : LifeComponent :=
  let leftColumnEnd := mulFloor03 c.cols
  let rightColumnStart := mulFloor07 c.cols
  { c with
    grid := (List.range c.rows).map fun i =>
      (List.range c.cols).map fun j =>
        if decide (j < leftColumnEnd) || decide (rightColumnStart ≤ j) then rnd i j
        else false
    nextGrid := (List.range c.rows).map fun _ =>
      (List.range c.cols).map fun _ => false }

/-- Embedding of `handleResize()`: no-op outside the browser; otherwise
recomputes `cols`/`rows` from the viewport, resizes the canvas when it is
bound, and reinitializes both grids. -/
def handleResize (browser canvasBound : Bool) (rnd : Nat → Nat → Bool)
    (innerWidth innerHeight : Nat) (c : LifeComponent) : LifeComponent :=
  if !browser then c
  else
    let c1 := { c with cols := innerWidth / c.cellSize, rows := innerHeight / c.cellSize }
    let c2 :=
      if canvasBound then
        { c1 with
          canvasWidth := c1.cols * c1.cellSize
          canvasHeight := c1.rows * c1.cellSize }
      else c1
    initializeGrid rnd c2

/-- Embedding of the grid-related part of `onMount` (the browser flag has
just been set, so there is no browser guard): recompute dimensions, size
the canvas when bound, and initialize the grid. -/
def mountComponent (canvasBound : Bool) (rnd : Nat → Nat → Bool)
    (innerWidth innerHeight : Nat) (c : LifeComponent) : LifeComponent :=
  let c1 := { c with cols := innerWidth / c.cellSize, rows := innerHeight / c.cellSize }
  let c2 :=
    if canvasBound then
      { c1 with
        canvasWidth := c1.cols * c1.cellSize
        canvasHeight := c1.rows * c1.cellSize }
    else c1
  initializeGrid rnd c2

/-- The "grid dimensions match current viewport / cell size" invariant as
the specification states it for viewport `(w, h)`. -/
def dimsInvariant (w h : Nat) (c : LifeComponent) : Prop :=
  c.rows = h / c.cellSize ∧ c.cols = w / c.cellSize ∧
  c.grid.length = c.rows ∧ (∀ row ∈ c.grid, row.length = c.cols) ∧
  c.nextGrid.length = c.rows ∧ (∀ row ∈ c.nextGrid, row.length = c.cols) ∧
  c.canvasWidth = c.cols * c.cellSize ∧ c.canvasHeight = c.rows * c.cellSize

/-! ## Strings and JavaScript whitespace -/

/-- The JavaScript `\s` character class (also the set trimmed by
`String.prototype.trimStart`): ASCII whitespace, NBSP, the Unicode
space separators, the line separators and the BOM. -/
def isJsWs (c : Char) : Bool :=
  c = ' ' || c = '\t' || c = '\n' || c = '\r' || c.toNat = 11 || c.toNat = 12 ||
  c.toNat = 0xa0 || c.toNat = 0x1680 ||
  (decide (0x2000 ≤ c.toNat) && decide (c.toNat ≤ 0x200a)) ||
  c.toNat = 0x2028 || c.toNat = 0x2029 || c.toNat = 0x202f || c.toNat = 0x205f ||
  c.toNat = 0x3000 || c.toNat = 0xfeff

/-- The `[\r\n]` character class of the front-matter pattern. -/
def isLineBreak (c : Char) : Bool := c = '\n' || c = '\r'

/-- JavaScript `trimStart()` on a character list. -/
def trimStartL (s : List Char) : List Char := s.dropWhile isJsWs

/-! ## The front-matter regular expression

`FRONT_MATTER_PATTERN = /^---\s*[\r\n]+([\s\S]*?)\r?\n---\s*(?:[\r\n]+|$)/`

The pattern is operationalized with standard backtracking-regex
semantics in continuation-passing style: a greedy quantifier offers the
longest extension first, a lazy quantifier the shortest, an alternation
its left branch first, and the first overall success wins.  Since the
pattern is anchored at `^` and the source uses `String.match` without
the global flag, only a match at position 0 is attempted. -/

/-- Greedy `p*`: consume as many `p`-characters as possible, backtracking
one character at a time into the continuation. -/
def starGreedy {α : Type} (p : Char → Bool) : List Char → (List Char → Option α) → Option α
  | [], k => k []
  | c :: cs, k => if p c then (starGreedy p cs k) <|> k (c :: cs) else k (c :: cs)

/-- Greedy `p+`: one mandatory `p`-character followed by greedy `p*`. -/
def plusGreedy {α : Type} (p : Char → Bool) : List Char → (List Char → Option α) → Option α
  | [], _ => none
  | c :: cs, k => if p c then starGreedy p cs k else none

/-- A literal character sequence. -/
def litMatch {α : Type} : List Char → List Char → (List Char → Option α) → Option α
  | [], s, k => k s
  | _ :: _, [], _ => none
  | c :: cs, d :: ds, k => if d = c then litMatch cs ds k else none

/-- Optional character `c?`, preferring to consume it. -/
def optChar {α : Type} (c : Char) : List Char → (List Char → Option α) → Option α
  | [], k => k []
  | d :: ds, k => if d = c then (k ds) <|> k (d :: ds) else k (d :: ds)

/-- The pattern tail `\s*(?:[\r\n]+|$)` after the closing `---`. -/
def tailEnd {α : Type} (s : List Char) (k : List Char → Option α) : Option α :=
  starGreedy isJsWs s fun s2 =>
    (plusGreedy isLineBreak s2 k) <|> (if s2.isEmpty then k s2 else none)

/-- One attempt at the closing delimiter `\r?\n---\s*(?:[\r\n]+|$)` at the
current position, with `g` the candidate captured group. -/
def tryClose (g : List Char) (s : List Char) : Option (List Char × List Char) :=
  optChar '\r' s fun s1 =>
    litMatch ['\n', '-', '-', '-'] s1 fun s3 =>
      tailEnd s3 fun rest => some (g, rest)

/-- The lazy group `([\s\S]*?)` followed by the closing delimiter: try the
shortest capture first, extending it one character at a time. -/
def closeSearch (acc : List Char) : List Char → Option (List Char × List Char)
  | [] => tryClose acc.reverse []
  | c :: cs => (tryClose acc.reverse (c :: cs)) <|> closeSearch (c :: acc) cs

/-- `markdown.match(FRONT_MATTER_PATTERN)`, returning the captured group 1
(the raw front matter) and the remainder of the string after the full
match (equivalently, `markdown.slice(fullMatch.length)`), or `none` when
the pattern does not match. -/
def matchFM (s : List Char) : Option (List Char × List Char) :=
  match s with
  | '-' :: '-' :: '-' :: s1 =>
      starGreedy isJsWs s1 fun s2 =>
        plusGreedy isLineBreak s2 fun s3 => closeSearch [] s3
  | _ => none

/-- Result of `parseFrontMatter`: the body `content` and the parsed
front-matter `data` (`none` models `undefined`). -/
structure FrontMatterResult (α : Type) where
  content : List Char
  data : Option α
deriving DecidableEq

/-- Embedding of `parseFrontMatter`.  The YAML parser (`js-yaml`'s `load`,
imported as `parseYaml`) is an oracle returning either a value of the
abstract YAML type `α` or an error; `isObjectVal` models the
`typeof data === "object" && data` check.  On a YAML error the function
logs (not modelled) and returns the whole original markdown with no
data. -/
def parseFrontMatter {α : Type} (parseYaml : List Char → Except Unit α)
    (isObjectVal : α → Bool) (markdown : List Char) : FrontMatterResult α :=
  if !(['-', '-', '-'].isPrefixOf (trimStartL markdown)) then
    { content := markdown, data := none }
  else
    match matchFM markdown with
    | none => { content := markdown, data := none }
    | some (rawFrontMatter, rest) =>
      match parseYaml rawFrontMatter with
      | .error _ => { content := markdown, data := none }
      | .ok data =>
        { content := trimStartL rest
          data := if isObjectVal data then some data else none }

/-- Specification-side well-formedness of a front-matter body: `y` must
not contain the closing-delimiter seed `"\n---"` anywhere. -/
def noNlDashes : List Char → Bool
  | [] => true
  | c :: cs => !(decide (c = '\n') && ['-', '-', '-'].isPrefixOf cs) && noNlDashes cs

/-- A canonical well-formed front-matter document
`"---\n" ++ y ++ "\n---\n" ++ b` (specification side). -/
def fmDoc (y b : List Char) : List Char :=
  '-' :: '-' :: '-' :: '\n' :: (y ++ '\n' :: '-' :: '-' :: '-' :: ('\n' :: b))

/-! ## The article viewer state machine (`MainSection.svelte`) -/

/-- The optional front-matter fields the component keeps
(`ArticleMeta`). -/
structure ArticleMeta where
  title : Option String := none
  date : Option String := none
  description : Option String := none
  lang : Option String := none
  tags : Option (List String) := none
deriving DecidableEq

/-- Lifting of the component's `toMeta` (abstract over the YAML value
type) to the optional `parsed.data`: `toMeta(undefined)` is `null`. -/
def toMetaOpt {α : Type} (toMeta : α → Option ArticleMeta) : Option α → Option ArticleMeta
  | none => none
  | some d => toMeta d

/-- The mutable view state of `MainSection.svelte`. -/
structure ViewState where
  currentRequest : Nat
  renderedHtml : String
  isLoading : Bool
  errorMessage : String
  activeSlug : Option String
  activeMeta : Option ArticleMeta
deriving DecidableEq

/-- The component's initial state: counter 0, nothing rendered, not
loading, no error, no selection. -/
def initialViewState : ViewState :=
  { currentRequest := 0, renderedHtml := "", isLoading := false, errorMessage := ""
    activeSlug := none, activeMeta := none }

/-- A sample state in which request 2 is the latest issued one (used to
witness facts about stale completions). -/
def midFlightState : ViewState :=
  { currentRequest := 2, renderedHtml := "h", isLoading := true, errorMessage := ""
    activeSlug := some "b", activeMeta := none }

/-- How one `selectArticle` fetch resolves. -/
inductive FetchOutcome where
  | success (html : String) (meta : Option ArticleMeta)
  | failure (message : String)
deriving DecidableEq

/-- The synchronous prefix of `selectArticle` up to the `fetch` call:
increment `currentRequest`, capture the new value as `requestId`, set the
loading flag, clear the error, record the selection, drop the old
metadata.  Returns the new state and the captured `requestId`. -/
def startStep (s : ViewState) (slug : String) : ViewState × Nat :=
  let requestId := s.currentRequest + 1
  ({ s with currentRequest := requestId, isLoading := true, errorMessage := ""
            activeSlug := some slug, activeMeta := none }, requestId)

/-- The continuation of `selectArticle` once its fetch resolves, given the
`requestId` captured at start.  On success, `renderedHtml`/`activeMeta`
are assigned only when `requestId` still equals `currentRequest` (the
early `return` otherwise), and the `finally` clause clears `isLoading`
under the same guard.  On failure, the `catch` clause assigns
`errorMessage` unconditionally before the guarded `finally`. -/
def finishStep (s : ViewState) (requestId : Nat) : FetchOutcome → ViewState
  | .success html meta =>
    if requestId = s.currentRequest then
      { s with renderedHtml := html, activeMeta := meta, isLoading := false }
    else s
  | .failure msg =>
    let s1 := { s with errorMessage := msg }
    if requestId = s1.currentRequest then { s1 with isLoading := false } else s1

/-- Interleaved user selections and fetch completions. -/
inductive UiEvent where
  | select (slug : String)
  | complete (requestId : Nat) (outcome : FetchOutcome)
deriving DecidableEq

/-- One event step of the viewer. -/
def applyEvent (s : ViewState) : UiEvent → ViewState
  | .select slug => (startStep s slug).1
  | .complete requestId outcome => finishStep s requestId outcome

/-- A whole interleaving of selections and completions. -/
def runTrace (s : ViewState) (events : List UiEvent) : ViewState :=
  events.foldl applyEvent s

/-- What the `fetch` inside `selectArticle` produced. -/
inductive FetchResult where
  | notOk
  | thrown (message : Option String)
  | body (markdown : List Char)
deriving DecidableEq

/-- The message of the error thrown on a non-success HTTP status. -/
def unableMessage : String := "Unable to fetch the selected article."

/-- The fallback message when the caught value is not an `Error`. -/
def unexpectedMessage : String := "An unexpected error occurred while loading."

/-- The try/catch body of `selectArticle` mapped over the fetch result:
a non-ok response throws `unableMessage` into the catch; a rejected fetch
surfaces its `Error` message (or the fallback for non-`Error` values); a
body is split into front matter and content, rendered
(`marked.parse(parsed.content || markdown)`, the oracle `markedParse`),
and paired with the extracted metadata. -/
def selectArticleOutcome {α : Type} (markedParse : List Char → String)
    (parseYaml : List Char → Except Unit α) (isObjectVal : α → Bool)
    (toMeta : α → Option ArticleMeta) : FetchResult → FetchOutcome
  | .notOk => .failure unableMessage
  | .thrown (some m) => .failure m
  | .thrown none => .failure unexpectedMessage
  | .body markdown =>
    let parsed := parseFrontMatter parseYaml isObjectVal markdown
    let html := markedParse (if parsed.content.isEmpty then markdown else parsed.content)
    .success html (toMetaOpt toMeta parsed.data)

/-! ## The notes loader (`+page.ts`) -/

/-- A GitHub contents-API file descriptor (`type` is a Lean keyword, so
the field is `type'`). -/
structure GitHubFile where
  name : List Char
  path : List Char
  type' : List Char
  download_url : Option (List Char)
deriving DecidableEq

/-- A selectable article as built by `load`. -/
structure Article where
  title : List Char
  slug : List Char
  download_url : Option (List Char)
  path : List Char
deriving DecidableEq

/-- JavaScript truthiness of `string | null`: `null` and the empty string
are falsy (`Boolean(article.download_url)`). -/
def jsTruthy : Option (List Char) → Bool
  | none => false
  | some s => !s.isEmpty

/-- `MARKDOWN_PATTERN.test(name)` for `/\.(md|mdx)$/i`: the name ends in
`.md` or `.mdx`, ASCII-case-insensitively. -/
def matchesMarkdown (name : List Char) : Bool :=
  ['.', 'm', 'd'].isSuffixOf (name.map Char.toLower) ||
  ['.', 'm', 'd', 'x'].isSuffixOf (name.map Char.toLower)

/-- `name.replace(MARKDOWN_PATTERN, "")`: strip the matched extension
(the only possible match is the suffix itself). -/
def stripMarkdownExt (name : List Char) : List Char :=
  if ['.', 'm', 'd', 'x'].isSuffixOf (name.map Char.toLower) then
    name.take (name.length - 4)
  else if ['.', 'm', 'd'].isSuffixOf (name.map Char.toLower) then
    name.take (name.length - 3)
  else name

/-- `chunk.charAt(0).toUpperCase() + chunk.slice(1)` (the empty chunk maps
to itself, as `charAt(0)` of `""` is `""`). -/
def capitalizeChunk : List Char → List Char
  | [] => []
  | c :: cs => c.toUpper :: cs

/-- `filename.split(/[-_]/)`: split at every hyphen or underscore,
keeping empty chunks exactly as JavaScript does. -/
def splitDashUnderscore : List Char → List (List Char)
  | [] => [[]]
  | c :: cs =>
    if c = '-' || c = '_' then [] :: splitDashUnderscore cs
    else
      match splitDashUnderscore cs with
      | chunk :: rest => (c :: chunk) :: rest
      | [] => [[c]]

/-- Embedding of `formatTitle`: strip the markdown extension, split on
hyphens/underscores, capitalize each chunk, join with spaces. -/
def formatTitle (filename : List Char) : List Char :=
  List.intercalate [' ']
    ((splitDashUnderscore (stripMarkdownExt filename)).map capitalizeChunk)

/-- The article record built from one file descriptor inside `load`. -/
def articleOf (f : GitHubFile) : Article :=
  { title := formatTitle f.name, slug := stripMarkdownExt f.name
    download_url := f.download_url, path := f.path }

/-- The string literal `"file"`. -/
def fileTypeLit : List Char := ['f', 'i', 'l', 'e']

/-- The article-list construction in `load`'s success path: filter to
files whose name matches the markdown pattern, build the article records,
then keep those with a truthy `download_url`. -/
def loadArticles (files : List GitHubFile) : List Article :=
  ((files.filter fun f => decide (f.type' = fileTypeLit) && matchesMarkdown f.name).map
    articleOf).filter fun a => jsTruthy a.download_url

/-- A file descriptor whose `download_url` is non-null but empty (the
JavaScript `Boolean` check rejects it). -/
def emptyUrlFile : GitHubFile :=
  { name := ['a', '.', 'm', 'd'], path := ['p'], type' := fileTypeLit
    download_url := some [] }

/-- How the directory-listing fetch in `load` resolved. -/
inductive DirFetch where
  | notOk (status : Nat)
  | thrown
  | ok (files : List GitHubFile)
deriving DecidableEq

/-- What `load` returns to the page. -/
structure LoadResult where
  articles : List Article
  introHtml : Option String
deriving DecidableEq

/-- Embedding of `load`: a non-ok response or a thrown error is logged
(not modelled) and yields `{ articles: [] }` with no intro HTML; a
successful listing yields the filtered article list and the rendered
intro. -/
def load (introHtml : String) : DirFetch → LoadResult
  | .notOk _ => { articles := [], introHtml := none }
  | .thrown => { articles := [], introHtml := none }
  | .ok files => { articles := loadArticles files, introHtml := some introHtml }

/-! ## The rendered view (template if-chain) -/

/-- The mutually exclusive contents of the main panel. -/
inductive MainView where
  | noArticles (message : String)
  | loading (message : String)
  | errorText (message : String)
  | content (html : String)
  | prompt (message : String)
deriving DecidableEq

/-- The template's if-chain for the main panel: no articles, else
loading, else a non-empty error message, else rendered content, else the
selection prompt. -/
def mainView (articles : List Article) (s : ViewState) : MainView :=
  if articles.isEmpty then
    .noArticles "Add markdown files to the Notes repo to see them here."
  else if s.isLoading then .loading "Loading article..."
  else if !(s.errorMessage = "") then .errorText s.errorMessage
  else if !(s.renderedHtml = "") then .content s.renderedHtml
  else .prompt "Select an article on the left to display its markdown content."

/-- The aside's empty-state message when the article list is empty. -/
def asideMessage (articles : List Article) : Option String :=
  if articles.isEmpty then some "No markdown files were found in the repo." else none

/-! ## Lemmas about grid access -/

/-- Reading an in-range cell of a grid built as a double `map` over
`List.range` yields the generating function. -/
theorem cellAt_map_range (r c : Nat) (g : Nat → Nat → Bool) (i j : Nat)
    (hi : i < r) (hj : j < c) :
    cellAt ((List.range r).map fun i => (List.range c).map fun j => g i j) i j = g i j := by
  simp [cellAt, List.getD_eq_getElem?_getD, List.getElem?_map, List.getElem?_range, hi, hj]

/-- Reading an out-of-range row of such a grid yields the default. -/
theorem cellAt_map_range_row_oob (r c : Nat) (g : Nat → Nat → Bool) (i j : Nat)
    (hi : ¬ i < r) :
    cellAt ((List.range r).map fun i => (List.range c).map fun j => g i j) i j = false := by
  have : ((List.range r).map fun i => (List.range c).map fun j => g i j)[i]? = none := by
    rw [List.getElem?_eq_none]
    simp
    omega
  simp [cellAt, List.getD_eq_getElem?_getD, this]

/-- Reading an out-of-range column of such a grid yields the default. -/
theorem cellAt_map_range_col_oob (r c : Nat) (g : Nat → Nat → Bool) (i j : Nat)
    (hj : ¬ j < c) :
    cellAt ((List.range r).map fun i => (List.range c).map fun j => g i j) i j = false := by
  by_cases hi : i < r
  · have : ((List.range c).map fun j => g i j)[j]? = none := by
      rw [List.getElem?_eq_none]
      simp
      omega
    simp [cellAt, List.getD_eq_getElem?_getD, List.getElem?_map, List.getElem?_range, hi, this]
  · exact cellAt_map_range_row_oob r c g i j hi

/-- CLAIM C1.  `computeNextGeneration` applies the standard Game of Life
rule at every cell of the `rows × cols` grid: a dead cell becomes alive
iff it has exactly 3 live neighbours, a live cell stays alive iff it has
2 or 3 live neighbours, everything else is dead.  The next buffer is a
pure function of the current grid alone (the statement's right-hand side
only mentions `grid`), which is exactly the double-buffering property:
no cell update can observe another cell's already-updated value. -/
theorem computeNextGeneration_life_rule (cols rows : Nat) (grid : List (List Bool))
    (i j : Nat) (hi : i < rows) (hj : j < cols) :
    cellAt (computeNextGeneration cols rows grid) i j
      = lifeRule (cellAt grid i j) (countNeighbors cols rows grid j i) := by
  rw [computeNextGeneration, cellAt_map_range rows cols _ i j hi hj]
  set n := countNeighbors cols rows grid j i with hn
  cases hb : cellAt grid i j <;> simp [lifeRule, hb] <;>
    by_cases h2 : n < 2 <;> by_cases h3 : 3 < n <;> simp [h2, h3] <;> omega

/-- Witness for C1 on a concrete blinker grid. -/
theorem computeNextGeneration_life_rule_witness :
    (1 : Nat) < 3 ∧ (0 : Nat) < 3 ∧
      cellAt (Site.computeNextGeneration 3 3 [[false, true, false], [false, true, false],
        [false, true, false]]) 1 0
        = lifeRule (cellAt [[false, true, false], [false, true, false],
            [false, true, false]] 1 0)
            (countNeighbors 3 3 [[false, true, false], [false, true, false],
              [false, true, false]] 0 1) :=
  ⟨by decide, by decide,
    computeNextGeneration_life_rule 3 3
      [[false, true, false], [false, true, false], [false, true, false]] 1 0
      (by decide) (by decide)⟩

/-- The inner counting fold of `countNeighbors` (over the row offsets `j`
at a fixed column offset `i`) adds the number of list elements that pass
the skip-`(0,0)` test and hold a live cell. -/
theorem inner_fold (g : Int → Bool) (i : Int) (L : List Int) (s : Nat) :
    L.foldl (fun sum j => if i = 0 ∧ j = 0 then sum
        else if g j then sum + 1 else sum) s
      = s + L.countP (fun j => if i = 0 ∧ j = 0 then false else g j) := by
  induction L generalizing s with
  | nil => simp
  | cons a L ih =>
    rw [List.foldl_cons, List.countP_cons, ih]
    by_cases hij : i = 0 ∧ a = 0
    · simp [hij]
    · by_cases hf : g a = true <;> simp [hij, hf] <;> omega

/-- CLAIM C2.  `countNeighbors cols rows grid x y` equals the number of
live cells among the eight toroidal neighbour positions of `(x, y)`
(`liveNeighborCount`, whose indices are taken modulo `cols` and `rows`),
the offset list has exactly the eight non-zero offsets, and the cell's
own offset `(0, 0)` is not among them. -/
theorem countNeighbors_eq_liveNeighborCount (cols rows : Nat) (grid : List (List Bool))
    (x y : Nat) :
    countNeighbors cols rows grid x y = liveNeighborCount cols rows grid x y ∧
      ((0 : Int), (0 : Int)) ∉ neighborOffsets ∧ neighborOffsets.length = 8 := by
  refine ⟨?_, by decide, by decide⟩
  rw [liveNeighborCount, ← List.countP_eq_length_filter]
  simp only [countNeighbors, inner_fold]
  simp only [offsetRange, neighborOffsets, List.foldl_cons, List.foldl_nil,
    List.countP_cons, List.countP_nil, wrapIdx]
  simp [Int.add_emod_self]
  omega

/-- `initializeGrid` rebuilds both buffers at the component's current
`rows × cols` dimensions and touches no other field. -/
theorem initializeGrid_dims (rnd : Nat → Nat → Bool) (c : LifeComponent) :
    (initializeGrid rnd c).grid.length = c.rows ∧
      (∀ row ∈ (initializeGrid rnd c).grid, row.length = c.cols) ∧
      (initializeGrid rnd c).nextGrid.length = c.rows ∧
      (∀ row ∈ (initializeGrid rnd c).nextGrid, row.length = c.cols) ∧
      (initializeGrid rnd c).cols = c.cols ∧ (initializeGrid rnd c).rows = c.rows ∧
      (initializeGrid rnd c).cellSize = c.cellSize ∧
      (initializeGrid rnd c).canvasWidth = c.canvasWidth ∧
      (initializeGrid rnd c).canvasHeight = c.canvasHeight := by
  refine ⟨by simp [initializeGrid], ?_, by simp [initializeGrid], ?_,
    by simp [initializeGrid], by simp [initializeGrid], by simp [initializeGrid],
    by simp [initializeGrid], by simp [initializeGrid]⟩ <;>
  · intro row hrow
    simp only [initializeGrid, List.mem_map] at hrow
    obtain ⟨a, -, rfl⟩ := hrow
    simp

/-- CLAIM C9.  After a mount and after every `handleResize` (browser
present, canvas bound), the grid dimensions match the current viewport:
`rows = ⌊innerHeight / cellSize⌋` and `cols = ⌊innerWidth / cellSize⌋`,
both buffers are exactly `rows` lists of exactly `cols` cells, and the
canvas measures `cols * cellSize` by `rows * cellSize`. -/
theorem viewport_dims_invariant (rnd : Nat → Nat → Bool) (w h : Nat) (c : LifeComponent) :
    dimsInvariant w h (handleResize true true rnd w h c) ∧
      dimsInvariant w h (mountComponent true rnd w h c) := by
  have hcore : ∀ c' : LifeComponent,
      c'.rows = h / c'.cellSize → c'.cols = w / c'.cellSize →
      c'.canvasWidth = c'.cols * c'.cellSize → c'.canvasHeight = c'.rows * c'.cellSize →
      dimsInvariant w h (initializeGrid rnd c') := by
    intro c' h1 h2 h3 h4
    obtain ⟨g1, g2, g3, g4, g5, g6, g7, g8, g9⟩ := initializeGrid_dims rnd c'
    exact ⟨by rw [g6, g7, h1], by rw [g5, g7, h2], by rw [g1, g6], by rw [g5]; exact g2,
      by rw [g3, g6], by rw [g5]; exact g4, by rw [g8, g5, g7, h3], by rw [g9, g6, g7, h4]⟩
  constructor
  · show dimsInvariant w h (initializeGrid rnd _)
    exact hcore _ rfl rfl rfl rfl
  · show dimsInvariant w h (initializeGrid rnd _)
    exact hcore _ rfl rfl rfl rfl

/-- CLAIM C10.  Right after `initializeGrid`, every cell in the centre
band of columns — `Math.floor(cols * 0.3) ≤ j < Math.floor(cols * 0.7)`,
the floating-point products modelled exactly by `mulFloor03`/`mulFloor07`
— is dead, whatever the random seeding oracle returned. -/
theorem initializeGrid_center_dead (rnd : Nat → Nat → Bool) (c : LifeComponent)
    (i j : Nat) (h1 : mulFloor03 c.cols ≤ j) (h2 : j < mulFloor07 c.cols) :
    cellAt (initializeGrid rnd c).grid i j = false := by
  have hgrid : (initializeGrid rnd c).grid = (List.range c.rows).map fun i =>
      (List.range c.cols).map fun j =>
        if decide (j < mulFloor03 c.cols) || decide (mulFloor07 c.cols ≤ j) then rnd i j
        else false := by
    simp [initializeGrid]
  rw [hgrid]
  by_cases hi : i < c.rows
  · by_cases hj : j < c.cols
    · rw [cellAt_map_range c.rows c.cols _ i j hi hj]
      have hcond : (decide (j < mulFloor03 c.cols) || decide (mulFloor07 c.cols ≤ j)) = false := by
        simp only [Bool.or_eq_false_iff, decide_eq_false_iff_not]
        omega
      simp [hcond]
    · exact cellAt_map_range_col_oob c.rows c.cols _ i j hj
  · exact cellAt_map_range_row_oob c.rows c.cols _ i j hi

/-- Witness for C10 on a concrete 2 × 10 component: the floating-point
cutoffs for 10 columns are 3 and 7, and column 4 stays dead even with an
always-alive random oracle. -/
theorem initializeGrid_center_dead_witness :
    mulFloor03 (10 : Nat) ≤ 4 ∧ (4 : Nat) < mulFloor07 10 ∧
      cellAt (initializeGrid (fun _ _ => true)
        { cols := 10, rows := 2, cellSize := 15, grid := [], nextGrid := [],
          canvasWidth := 0, canvasHeight := 0 }).grid 0 4 = false :=
  ⟨by decide, by decide,
    initializeGrid_center_dead (fun _ _ => true)
      { cols := 10, rows := 2, cellSize := 15, grid := [], nextGrid := [],
        canvasWidth := 0, canvasHeight := 0 } 0 4 (by decide) (by decide)⟩

/-! ## Request-id guard (claims C3 and C4) -/

/-- Counterexample to CLAIM C3 as stated.  In the trace "select `a`,
select `b`, then the stale fetch of `a` (request id 1) fails while the
latest issued id is 2", the stale failure's `errorMessage` is *not*
discarded: it overwrites the empty message that the newer selection had
just installed, because the `catch` clause assigns `errorMessage` without
comparing `requestId` to `currentRequest`. -/
theorem stale_error_overwrites_cex :
    (runTrace initialViewState [UiEvent.select "a", UiEvent.select "b",
        UiEvent.complete 1 (FetchOutcome.failure "boom")]).errorMessage = "boom" ∧
      (runTrace initialViewState [UiEvent.select "a",
          UiEvent.select "b"]).currentRequest = 2 ∧
      (1 : Nat) ≠ 2 ∧
      (runTrace initialViewState [UiEvent.select "a",
          UiEvent.select "b"]).errorMessage = "" := by
  refine ⟨?_, ?_, ?_, ?_⟩ <;> decide

/-- CLAIM C3, amended.  A completion whose captured `requestId` differs
from the latest issued id never changes `renderedHtml`, `activeMeta`,
`isLoading` or `currentRequest`; a stale *successful* response is
discarded entirely.  (A stale *failed* response, however, does write
`errorMessage`, as the counterexample shows.) -/
theorem stale_response_guard (s : ViewState) (requestId : Nat) (o : FetchOutcome)
    (h : requestId ≠ s.currentRequest) :
    (finishStep s requestId o).renderedHtml = s.renderedHtml ∧
      (finishStep s requestId o).activeMeta = s.activeMeta ∧
      (finishStep s requestId o).isLoading = s.isLoading ∧
      (finishStep s requestId o).currentRequest = s.currentRequest ∧
      (∀ html meta, o = FetchOutcome.success html meta → finishStep s requestId o = s) := by
  cases o <;> simp [finishStep, h]

/-- Witness for the amended C3 at a concrete stale failure. -/
theorem stale_response_guard_witness :
    (1 : Nat) ≠ midFlightState.currentRequest ∧
      ((finishStep midFlightState 1 (FetchOutcome.failure "boom")).renderedHtml = "h" ∧
        (finishStep midFlightState 1 (FetchOutcome.failure "boom")).isLoading = true) :=
  ⟨by decide,
    by
      have h := stale_response_guard midFlightState 1 (FetchOutcome.failure "boom") (by decide)
      exact ⟨h.1.trans (by decide), h.2.2.1.trans (by decide)⟩⟩

/-- CLAIM C4.  `selectArticle` increments `currentRequest` by exactly one
before fetching and captures the new value as its request id; no event
ever decreases `currentRequest`; and after a new selection no previously
issued id (every earlier id is at most the old counter value) equals the
latest issued id — so only the newest in-flight fetch passes the
`requestId === currentRequest` authoritativeness check. -/
theorem request_counter_monotone :
    (∀ (s : ViewState) (slug : String),
      (startStep s slug).2 = s.currentRequest + 1 ∧
        (startStep s slug).1.currentRequest = s.currentRequest + 1) ∧
      (∀ (s : ViewState) (e : UiEvent),
        s.currentRequest ≤ (applyEvent s e).currentRequest) ∧
      (∀ (s : ViewState) (slug : String) (oldId : Nat),
        oldId ≤ s.currentRequest → oldId ≠ (startStep s slug).1.currentRequest) := by
  refine ⟨fun s slug => ⟨rfl, rfl⟩, ?_, ?_⟩
  · intro s e
    cases e with
    | select slug => simp [applyEvent, startStep]
    | complete requestId o =>
      cases o <;> simp only [applyEvent, finishStep] <;> split <;> simp
  · intro s slug oldId h
    simp only [startStep]
    omega

/-- Witness for C4's hypothesis-bearing part at a concrete state. -/
theorem request_counter_monotone_witness :
    (0 : Nat) ≤ initialViewState.currentRequest ∧
      (0 : Nat) ≠ (startStep initialViewState "a").1.currentRequest :=
  ⟨by decide, request_counter_monotone.2.2 initialViewState "a" 0 (by decide)⟩

/-! ## Error handling (claims C5 and C6) -/

/-- CLAIM C5.  Fetch failures surface as short user-visible messages and
nothing is fatal: a non-ok article fetch resolves to the fixed (non-empty)
`unableMessage`, a rejected fetch to the thrown error's message or the
non-empty fallback; completing a failed non-stale request renders the
error message in the main panel; and a failed directory listing in `load`
(non-ok or thrown) yields an empty article list, for which the template
shows the fixed empty-state messages.  All modelled functions are total:
no outcome is an unhandled exception. -/
theorem fetch_failures_surface {α : Type} (markedParse : List Char → String)
    (parseYaml : List Char → Except Unit α) (isObjectVal : α → Bool)
    (toMeta : α → Option ArticleMeta) :
    (selectArticleOutcome markedParse parseYaml isObjectVal toMeta FetchResult.notOk
        = FetchOutcome.failure unableMessage ∧ unableMessage ≠ "") ∧
      (∀ m, selectArticleOutcome markedParse parseYaml isObjectVal toMeta
          (FetchResult.thrown m) = FetchOutcome.failure (m.getD unexpectedMessage) ∧
            unexpectedMessage ≠ "") ∧
      (∀ (articles : List Article) (s : ViewState) (slug msg : String),
        articles ≠ [] → msg ≠ "" →
          mainView articles (finishStep (startStep s slug).1 (startStep s slug).2
            (FetchOutcome.failure msg)) = MainView.errorText msg) ∧
      (∀ (introHtml : String) (status : Nat),
        load introHtml (DirFetch.notOk status) = { articles := [], introHtml := none } ∧
          load introHtml DirFetch.thrown = { articles := [], introHtml := none }) ∧
      (∀ s : ViewState, mainView [] s
          = MainView.noArticles "Add markdown files to the Notes repo to see them here.") ∧
      asideMessage [] = some "No markdown files were found in the repo." := by
  refine ⟨⟨rfl, by decide⟩, ?_, ?_, fun introHtml status => ⟨rfl, rfl⟩,
    fun s => rfl, rfl⟩
  · intro m
    cases m <;> exact ⟨rfl, by decide⟩
  · intro articles s slug msg harts hmsg
    cases articles with
    | nil => exact absurd rfl harts
    | cons a as => simp [startStep, finishStep, mainView, hmsg]

/-- Witness for C5's hypothesis-bearing part: a failed non-stale request
for a one-article list displays the error text. -/
theorem fetch_failures_surface_witness :
    ([{ title := ['A'], slug := ['a'], download_url := some ['u'], path := ['p'] }]
        ≠ ([] : List Article)) ∧ ("boom" : String) ≠ "" ∧
      mainView [{ title := ['A'], slug := ['a'], download_url := some ['u'], path := ['p'] }]
        (finishStep (startStep initialViewState "a").1 (startStep initialViewState "a").2
          (FetchOutcome.failure "boom")) = MainView.errorText "boom" :=
  ⟨by decide, by decide,
    (fetch_failures_surface (fun _ => "") (fun _ => Except.error ()) (fun (_ : Unit) => true)
      (fun _ => none)).2.2.1
      [{ title := ['A'], slug := ['a'], download_url := some ['u'], path := ['p'] }]
      initialViewState "a" "boom" (by decide) (by decide)⟩

/-- CLAIM C6.  Whenever the front-matter block of a markdown input is
found by the pattern but its YAML fails to parse, `parseFrontMatter`
returns the original markdown unchanged as `content` with no data (the
`console.error` call is outside the model): the parse error never escapes
and no markdown text is lost. -/
theorem parse_front_matter_error_fallback {α : Type}
    (parseYaml : List Char → Except Unit α) (isObjectVal : α → Bool)
    (markdown raw rest : List Char) (e : Unit)
    (hm : matchFM markdown = some (raw, rest))
    (hp : parseYaml raw = Except.error e) :
    parseFrontMatter parseYaml isObjectVal markdown
      = { content := markdown, data := none } := by
  by_cases hpre : (['-', '-', '-'].isPrefixOf (trimStartL markdown)) = true
  · simp [parseFrontMatter, hpre, hm, hp]
  · simp [parseFrontMatter, hpre]

/-- Witness for C6 on a concrete document with a failing YAML oracle. -/
theorem parse_front_matter_error_fallback_witness :
    matchFM "---\na: 1\n---\nbody".toList = some ("a: 1".toList, "body".toList) ∧
      ((fun _ => Except.error ()) : List Char → Except Unit Unit) "a: 1".toList
        = Except.error () ∧
      parseFrontMatter (fun _ => Except.error ()) (fun (_ : Unit) => true)
        "---\na: 1\n---\nbody".toList
        = { content := "---\na: 1\n---\nbody".toList, data := none } :=
  ⟨by decide, rfl,
    parse_front_matter_error_fallback (fun _ => Except.error ()) (fun (_ : Unit) => true)
      "---\na: 1\n---\nbody".toList "a: 1".toList "body".toList ()
      (by decide) rfl⟩

/-! ## The article list built by `load` (claim C8) -/

/-- Counterexample to CLAIM C8 as stated.  A listing entry of type
`file`, with a markdown name and a *non-null* `download_url`, is still
excluded from the article list when that URL is the empty string: the
code filters with JavaScript truthiness (`Boolean(article.download_url)`),
not with a null check. -/
theorem load_articles_nonnull_cex :
    articleOf emptyUrlFile ∉ loadArticles [emptyUrlFile] ∧
      loadArticles [emptyUrlFile] = [] ∧
      emptyUrlFile.type' = fileTypeLit ∧
      matchesMarkdown emptyUrlFile.name = true ∧
      emptyUrlFile.download_url ≠ none := by
  refine ⟨?_, ?_, ?_, ?_, ?_⟩ <;> decide

/-- CLAIM C8, amended.  The article list contains exactly the images of
the listing entries whose `type` is `"file"`, whose name matches the
markdown-extension pattern (case-insensitive `.md`/`.mdx`), and whose
`download_url` is truthy — non-null *and* non-empty; each article is
`articleOf f`, i.e. its slug is the filename with the extension stripped
and its title is `formatTitle` of the filename (strip extension, split on
hyphens and underscores, capitalize each chunk, join with spaces). -/
theorem load_articles_exact (files : List GitHubFile) (a : Article) :
    a ∈ loadArticles files ↔ ∃ f, f ∈ files ∧ f.type' = fileTypeLit ∧
      matchesMarkdown f.name = true ∧ jsTruthy f.download_url = true ∧
      a = articleOf f := by
  simp only [loadArticles, List.mem_filter, List.mem_map]
  constructor
  · rintro ⟨⟨f, ⟨hmem, hcond⟩, rfl⟩, htruthy⟩
    rw [Bool.and_eq_true, decide_eq_true_eq] at hcond
    exact ⟨f, hmem, hcond.1, hcond.2, htruthy, rfl⟩
  · rintro ⟨f, hmem, ht, hmk, htruthy, rfl⟩
    exact ⟨⟨f, ⟨hmem, by rw [Bool.and_eq_true, decide_eq_true_eq]; exact ⟨ht, hmk⟩⟩, rfl⟩,
      htruthy⟩

/-! ## The front-matter split (claim C7) -/

/-- Unfolding equation: greedy star on the empty string. -/
theorem starGreedy_nil {A : Type} (p : Char → Bool) (k : List Char → Option A) :
    starGreedy p [] k = k [] := rfl

/-- Unfolding equation: greedy star consumes a matching head first. -/
theorem starGreedy_cons_pos {A : Type} (p : Char → Bool) (c : Char) (cs : List Char)
    (k : List Char → Option A) (h : p c = true) :
    starGreedy p (c :: cs) k = (starGreedy p cs k <|> k (c :: cs)) := by
  simp [starGreedy, h]

/-- Unfolding equation: greedy star stops at a non-matching head. -/
theorem starGreedy_cons_neg {A : Type} (p : Char → Bool) (c : Char) (cs : List Char)
    (k : List Char → Option A) (h : p c = false) :
    starGreedy p (c :: cs) k = k (c :: cs) := by
  simp [starGreedy, h]

/-- Unfolding equation: greedy plus fails on the empty string. -/
theorem plusGreedy_nil {A : Type} (p : Char → Bool) (k : List Char → Option A) :
    plusGreedy p [] k = none := rfl

/-- Unfolding equation: greedy plus consumes a matching head. -/
theorem plusGreedy_cons_pos {A : Type} (p : Char → Bool) (c : Char) (cs : List Char)
    (k : List Char → Option A) (h : p c = true) :
    plusGreedy p (c :: cs) k = starGreedy p cs k := by
  simp [plusGreedy, h]

/-- Unfolding equation: greedy plus fails on a non-matching head. -/
theorem plusGreedy_cons_neg {A : Type} (p : Char → Bool) (c : Char) (cs : List Char)
    (k : List Char → Option A) (h : p c = false) :
    plusGreedy p (c :: cs) k = none := by
  simp [plusGreedy, h]

/-- Unfolding equation: the optional character prefers consuming. -/
theorem optChar_cons_pos {A : Type} (c : Char) (ds : List Char)
    (k : List Char → Option A) :
    optChar c (c :: ds) k = (k ds <|> k (c :: ds)) := by
  simp [optChar]

/-- Unfolding equation: the optional character skips a mismatch. -/
theorem optChar_cons_neg {A : Type} (c d : Char) (ds : List Char)
    (k : List Char → Option A) (h : ¬ d = c) :
    optChar c (d :: ds) k = k (d :: ds) := by
  simp [optChar, h]

/-- The newline is JavaScript whitespace. -/
theorem isJsWs_nl : isJsWs '\n' = true := by decide

/-- The newline is a line break. -/
theorem isLineBreak_nl : isLineBreak '\n' = true := by decide

/-- A non-whitespace character is not a line break. -/
theorem lineBreak_of_not_ws (d : Char) (h : isJsWs d = false) : isLineBreak d = false := by
  have hne : d ≠ '\n' ∧ d ≠ '\r' := by
    constructor <;> rintro rfl <;> simp [isJsWs] at h
  simp [isLineBreak, hne.1, hne.2]

/-- A list that does not start with `"---"` cannot begin the closing
dashes even with the rest of the document appended, as the appended part
starts with a newline. -/
theorem litMatch_dashes_none {A : Type} (t rest : List Char)
    (k : List Char → Option A) (h : ['-', '-', '-'].isPrefixOf t = false) :
    litMatch ['-', '-', '-'] (t ++ '\n' :: rest) k = none := by
  rcases t with _ | ⟨a, _ | ⟨b, _ | ⟨c, t'⟩⟩⟩
  · simp [litMatch]
  · by_cases ha : a = '-' <;> simp [litMatch, ha]
  · by_cases ha : a = '-' <;> by_cases hb : b = '-' <;> simp [litMatch, ha, hb]
  · by_cases ha : a = '-' <;> by_cases hb : b = '-' <;> by_cases hc : c = '-' <;>
      simp [litMatch, ha, hb, hc] <;> simp [List.isPrefixOf, ha, hb, hc] at h

/-- The pattern tail `\s*(?:[\r\n]+|$)` on a newline followed by either
nothing or a non-whitespace character reaches the continuation exactly at
that remainder. -/
theorem tailEnd_nl {A : Type} (b : List Char) (k : List Char → Option A)
    (hb : ∀ d, b.head? = some d → isJsWs d = false) :
    tailEnd ('\n' :: b) k = k b := by
  rcases b with _ | ⟨d, bs⟩
  · cases hk : k [] <;>
      simp [tailEnd, starGreedy_cons_pos _ _ _ _ isJsWs_nl, starGreedy_nil,
        plusGreedy_cons_pos _ _ _ _ isLineBreak_nl, plusGreedy_nil, hk]
  · have hd : isJsWs d = false := hb d rfl
    have hdl : isLineBreak d = false := lineBreak_of_not_ws d hd
    cases hk : k (d :: bs) <;>
      simp [tailEnd, starGreedy_cons_pos _ _ _ _ isJsWs_nl,
        starGreedy_cons_neg _ _ _ _ hd, starGreedy_cons_neg _ _ _ _ hdl,
        plusGreedy_cons_pos _ _ _ _ isLineBreak_nl,
        plusGreedy_cons_neg _ _ _ _ hdl, hk]

/-- At the genuine closing delimiter the close attempt succeeds and
captures exactly the group built so far, leaving the body. -/
theorem tryClose_boundary (g b : List Char)
    (hb : ∀ d, b.head? = some d → isJsWs d = false) :
    tryClose g ('\n' :: '-' :: '-' :: '-' :: ('\n' :: b)) = some (g, b) := by
  rw [tryClose, optChar_cons_neg _ _ _ _ (by decide)]
  simp only [litMatch, if_pos rfl]
  exact tailEnd_nl b _ hb

/-- Inside a well-formed front-matter body no close attempt can succeed:
each candidate position either lacks the `\r?\n---` shape, or would
require a `"\n---"` occurrence or a trailing `'\r'` that the hypotheses
exclude. -/
theorem tryClose_inside_none (acc : List Char) (c : Char) (y' b : List Char)
    (hno : noNlDashes (c :: y') = true)
    (hlast : (c :: y').getLast? ≠ some '\r') :
    tryClose acc (c :: (y' ++ '\n' :: '-' :: '-' :: '-' :: ('\n' :: b))) = none := by
  have hno2 : noNlDashes y' = true := by
    rw [noNlDashes, Bool.and_eq_true] at hno
    exact hno.2
  by_cases hc : c = '\r'
  · subst hc
    rcases y' with _ | ⟨e, y''⟩
    · simp at hlast
    · rw [tryClose, optChar_cons_pos]
      have hfirst : ∀ (k : List Char → Option (List Char × List Char)),
          litMatch ['\n', '-', '-', '-']
            ((e :: y'') ++ '\n' :: '-' :: '-' :: '-' :: ('\n' :: b)) k = none := by
        intro k
        by_cases he : e = '\n'
        · subst he
          have hpre : (['-', '-', '-'].isPrefixOf y'') = false := by
            rw [noNlDashes, Bool.and_eq_true] at hno2
            simpa using hno2.1
          simp only [List.cons_append, litMatch, if_pos rfl]
          exact litMatch_dashes_none y'' _ _ hpre
        · simp [litMatch, he]
      have hsecond : ∀ (k : List Char → Option (List Char × List Char)),
          litMatch ['\n', '-', '-', '-']
            ('\r' :: ((e :: y'') ++ '\n' :: '-' :: '-' :: '-' :: ('\n' :: b))) k
            = none := by
        intro k
        simp [litMatch]
      rw [hfirst, hsecond]
      rfl
  · rw [tryClose, optChar_cons_neg _ _ _ _ hc]
    by_cases hcn : c = '\n'
    · subst hcn
      have hpre : (['-', '-', '-'].isPrefixOf y') = false := by
        rw [noNlDashes, Bool.and_eq_true] at hno
        simpa using hno.1
      simp only [litMatch, if_pos rfl]
      exact litMatch_dashes_none y' _ _ hpre
    · simp [litMatch, hcn]

/-- The lazy group search finds the boundary delimiter first: inside a
well-formed body every earlier attempt fails, so the captured group is
exactly the body and the remainder starts right after the delimiter's
newline. -/
theorem closeSearch_main (b : List Char)
    (hb : ∀ d, b.head? = some d → isJsWs d = false) :
    ∀ y : List Char, noNlDashes y = true → y.getLast? ≠ some '\r' →
      ∀ acc : List Char,
        closeSearch acc (y ++ '\n' :: '-' :: '-' :: '-' :: ('\n' :: b))
          = some (acc.reverse ++ y, b) := by
  intro y
  induction y with
  | nil =>
    intro _ _ acc
    simp only [List.nil_append]
    rw [closeSearch, tryClose_boundary _ _ hb]
    simp
  | cons c y' ih =>
    intro hno hlast acc
    simp only [List.cons_append]
    rw [closeSearch, tryClose_inside_none acc.reverse c y' b hno hlast]
    have hno' : noNlDashes y' = true := by
      rw [noNlDashes, Bool.and_eq_true] at hno
      exact hno.2
    have hlast' : y'.getLast? ≠ some '\r' := by
      rcases y' with _ | ⟨e, y''⟩
      · simp
      · rw [List.getLast?_cons_cons] at hlast
        exact hlast
    rw [Option.none_orElse, ih hno' hlast' (c :: acc)]
    simp

/-- On a canonical well-formed document the front-matter pattern matches
with group 1 exactly the body between the delimiter lines and the
remainder exactly the text after the closing delimiter's newline. -/
theorem matchFM_wellformed (y b : List Char) (hy : y ≠ [])
    (hhead : ∀ d, y.head? = some d → isJsWs d = false)
    (hno : noNlDashes y = true) (hlast : y.getLast? ≠ some '\r')
    (hb : ∀ d, b.head? = some d → isJsWs d = false) :
    matchFM (fmDoc y b) = some (y, b) := by
  rcases y with _ | ⟨d, y0⟩
  · exact absurd rfl hy
  · have hd : isJsWs d = false := hhead d rfl
    have hdl : isLineBreak d = false := lineBreak_of_not_ws d hd
    show starGreedy isJsWs ('\n' :: ((d :: y0) ++ '\n' :: '-' :: '-' :: '-' :: ('\n' :: b)))
        (fun s2 => plusGreedy isLineBreak s2 fun s3 => closeSearch [] s3) = some (d :: y0, b)
    simp only [List.cons_append, starGreedy_cons_pos _ _ _ _ isJsWs_nl,
      starGreedy_cons_neg _ _ _ _ hd, starGreedy_cons_neg _ _ _ _ hdl,
      plusGreedy_cons_neg _ _ _ _ hdl, plusGreedy_cons_pos _ _ _ _ isLineBreak_nl,
      Option.none_orElse]
    have h := closeSearch_main b hb (d :: y0) hno hlast []
    simp only [List.cons_append, List.reverse_nil, List.nil_append] at h
    exact h

/-- Trimming does nothing to a string that is empty or starts with a
non-whitespace character. -/
theorem trimStart_nonws (b : List Char)
    (hb : ∀ d, b.head? = some d → isJsWs d = false) : trimStartL b = b := by
  rcases b with _ | ⟨d, bs⟩
  · rfl
  · simp [trimStartL, List.dropWhile, hb d rfl]

/-- CLAIM C7.  `parseFrontMatter` splits via the fixed regular expression:
(1) an input that does not begin with `---` after leading whitespace is
returned unchanged with no metadata; (2) so is any input on which the
pattern fails to match; (3) on a document `---\n` + body `y` + `\n---\n` +
rest `b` (with `y` non-empty, not starting with whitespace, containing no
`"\n---"`, not ending in `'\r'`, and `b` empty or starting with a
non-whitespace character), the pattern captures exactly `y`, and when the
YAML oracle parses `y` the result has the YAML value of `y` as data and
the remaining body `b` (leading whitespace trimmed) as content. -/
theorem front_matter_regex_split {A : Type} (parseYaml : List Char → Except Unit A)
    (isObjectVal : A → Bool) :
    (∀ markdown : List Char,
      (['-', '-', '-'].isPrefixOf (trimStartL markdown)) = false →
        parseFrontMatter parseYaml isObjectVal markdown
          = { content := markdown, data := none }) ∧
      (∀ markdown : List Char, matchFM markdown = none →
        parseFrontMatter parseYaml isObjectVal markdown
          = { content := markdown, data := none }) ∧
      (∀ y b : List Char, y ≠ [] →
        (∀ d, y.head? = some d → isJsWs d = false) →
        noNlDashes y = true → y.getLast? ≠ some '\r' →
        (∀ d, b.head? = some d → isJsWs d = false) →
        matchFM (fmDoc y b) = some (y, b) ∧
          ∀ d, parseYaml y = Except.ok d →
            parseFrontMatter parseYaml isObjectVal (fmDoc y b)
              = { content := b, data := if isObjectVal d then some d else none }) := by
  refine ⟨?_, ?_, ?_⟩
  · intro md h
    simp [parseFrontMatter, h]
  · intro md h
    rw [parseFrontMatter, h]
    split <;> rfl
  · intro y b hy hhead hno hlast hb
    have hm := matchFM_wellformed y b hy hhead hno hlast hb
    refine ⟨hm, fun d hd => ?_⟩
    have hpre : (['-', '-', '-'].isPrefixOf (trimStartL (fmDoc y b))) = true := by
      have ht : trimStartL (fmDoc y b) = fmDoc y b := by
        simp [trimStartL, fmDoc, List.dropWhile, isJsWs]
      rw [ht, fmDoc]
      simp [List.isPrefixOf]
    rw [parseFrontMatter, hpre]
    simp only [Bool.not_true, Bool.false_eq_true, if_false, hm, hd]
    rw [trimStart_nonws b hb]

/-- Witness for C7: all three parts at concrete inputs, with an identity
YAML oracle that treats every value as an object. -/
theorem front_matter_regex_split_witness :
    ((['-', '-', '-'].isPrefixOf (trimStartL "hello".toList)) = false ∧
      parseFrontMatter (fun l => Except.ok l) (fun (_ : List Char) => true) "hello".toList
        = { content := "hello".toList, data := none }) ∧
      (matchFM "--- x".toList = none ∧
        parseFrontMatter (fun l => Except.ok l) (fun (_ : List Char) => true) "--- x".toList
          = { content := "--- x".toList, data := none }) ∧
      (matchFM (fmDoc "t: 1".toList "body".toList)
          = some ("t: 1".toList, "body".toList) ∧
        parseFrontMatter (fun l => Except.ok l) (fun (_ : List Char) => true)
          (fmDoc "t: 1".toList "body".toList)
          = { content := "body".toList, data := some "t: 1".toList }) := by
  have h3 := (front_matter_regex_split (fun l => Except.ok l)
    (fun (_ : List Char) => true)).2.2 "t: 1".toList "body".toList
    (by decide) (by intro d hd; cases hd; decide) (by decide) (by decide)
    (by intro d hd; cases hd; decide)
  refine ⟨⟨by decide, (front_matter_regex_split _ _).1 _ (by decide)⟩,
    ⟨by decide, (front_matter_regex_split _ _).2.1 _ (by decide)⟩,
    ⟨h3.1, ?_⟩⟩
  have h := h3.2 "t: 1".toList rfl
  simpa using h

end Site
